import Mathlib

/-!
Verification development for the Morph POC dashboard repository.

The repository is a TypeScript/React application; the parts relevant to the
claims are shallowly embedded here:

* a small model of JavaScript values (`JVal`) and plain objects
  (association lists of string keys), with JS truthiness and the
  `{...obj, [k]: v}` spread-update semantics;
* the mocked connector/model registry (`lib/mocked-data.tsx`);
* the client resource table (`ClientResourceTable`): column type inference,
  list loading (initial and load-more), the load-more guard, the list
  request construction, and the optimistic cell update with its three
  remote outcomes (success, error result, thrown exception);
* the editable cell (`components/resources/editable-cell.tsx`): the
  display/edit state machine, keyboard handling, and the per-type display
  and edit-widget rendering;
* the server resource page (`ServerResourcePage`): the try/catch page
  boundary that renders a not-found response on any failure.

Asynchronous remote calls are embedded by passing the call's outcome as an
explicit argument; React `useState` setters become explicit state-passing.
-/

namespace MorphPoc

/-- A JavaScript runtime value, restricted to the shapes this application
manipulates: `null`, `undefined`, booleans, numbers, strings, `Date`
objects (carrying a timestamp), and plain objects (ordered key/value
property lists). -/
inductive JVal where
  | jNull
  | jUndefined
  | jBool (b : Bool)
  | jNum (n : Int)
  | jStr (s : String)
  | jDate (t : Int)
  | jObj (props : List (String × JVal))
deriving Repr

/-- A JavaScript plain object: its ordered property list. -/
abbrev JObj := List (String × JVal)

/-- Property read `o[k]`: the first property named `k`, or `undefined`
when the object has no such property. -/
def objGet (o : JObj) (k : String) : JVal :=
  match o.find? (fun p => p.1 = k) with
  | some p => p.2
  | none => .jUndefined

/-- The spread update `{...o, [k]: v}`: if `k` is already a property its
value is replaced in place, otherwise the property is appended. -/
def objSet (o : JObj) (k : String) (v : JVal) : JObj :=
  if o.any (fun p => p.1 = k) then
    o.map (fun p => if p.1 = k then (k, v) else p)
  else
    o ++ [(k, v)]

/-- `v !== undefined` is false exactly here. -/
def isUndefined : JVal → Bool
  | .jUndefined => true
  | _ => false

/-- JavaScript truthiness. -/
def jsTruthy : JVal → Bool
  | .jNull => false
  | .jUndefined => false
  | .jBool b => b
  | .jNum n => decide (n ≠ 0)
  | .jStr s => decide (s ≠ "")
  | .jDate _ => true
  | .jObj _ => true

/-- Strict equality `v === s` between a value and a string literal. -/
def jvalEqStr : JVal → String → Bool
  | .jStr s, t => s = t
  | _, _ => false

/-- A resource record row, as the table holds it: a JS object with (at
least) an `id` property and a `fields` property holding an object. -/
abbrev Row := JObj

/-- `row.fields` viewed as an object's property list; non-object values
contribute no properties (spreading them adds none). -/
def rowFieldsObj (row : Row) : JObj :=
  match objGet row "fields" with
  | .jObj l => l
  | _ => []

/-! ## Mocked data registry (`lib/mocked-data.tsx`) -/

/-- A model field: identifier and display name. -/
structure Field where
  id : String
  name : String
deriving Repr, DecidableEq

/-- A resource model: identifier, display name and ordered field list. -/
structure Model where
  id : String
  name : String
  fields : List Field
deriving Repr, DecidableEq

/-- The mocked `genericContact` model. -/
def genericContact : Model :=
  { id := "genericContact", name := "Contact",
    fields := [⟨"firstName", "First Name"⟩, ⟨"lastName", "Last Name"⟩,
               ⟨"email", "Email"⟩,
               ⟨"fld_journeybee_lead__c", "Journeybee Lead"⟩,
               ⟨"fld_journeybee_partner__c", "Journeybee Partner"⟩] }

/-- The mocked `genericCompany` model. -/
def genericCompany : Model :=
  { id := "genericCompany", name := "Company",
    fields := [⟨"name", "Name"⟩,
               ⟨"fld_journeybee_lead__c", "Journeybee Lead"⟩,
               ⟨"fld_journeybee_partner__c", "Journeybee Partner"⟩] }

/-- The mocked `crmOpportunity` model. -/
def crmOpportunity : Model :=
  { id := "crmOpportunity", name := "Opportunity",
    fields := [⟨"name", "Name"⟩, ⟨"amount", "Amount"⟩, ⟨"stage", "Stage"⟩,
               ⟨"pipeline", "Pipeline"⟩,
               ⟨"fld_journeybee_lead__c", "Journeybee Lead"⟩,
               ⟨"fld_journeybee_partner__c", "Journeybee Partner"⟩] }

/-- The `MODELS` catalog. -/
def mockedModels : List Model := [genericContact, genericCompany, crmOpportunity]

/-- `mocked.models.get(id)`: first model with the given identifier. -/
def modelsGet (mid : String) : Option Model :=
  mockedModels.find? (fun m => m.id = mid)

/-! ## Columns and type inference (`ClientResourceTable`) -/

/-- A table column descriptor: field identifier, header text, inferred
value type (as the source keeps it, a string). -/
structure Column where
  id : String
  header : String
  type : String
deriving Repr, DecidableEq

/-- `allColumns`: one column per model field, defaulting to type
`"text"`. -/
def allColumns (m : Model) : List Column :=
  m.fields.map (fun f => { id := f.id, header := f.name, type := "text" })

/-- The per-value type inference step of `loadResources`: numbers upgrade
the column to `"number"`, booleans to `"boolean"`, `Date` objects and
date-parsable strings to `"date"`; everything else leaves the current type
unchanged. `dp` is the external `Date.parse` success oracle on strings
(`!isNaN(Date.parse(value))`). -/
def inferValueType (dp : String → Bool) (v : JVal) (cur : String) : String :=
  match v with
  | .jNum _ => "number"
  | .jBool _ => "boolean"
  | .jDate _ => "date"
  | .jStr s => if dp s then "date" else cur
  | _ => cur

/-- `allColumns.find(col => col.id === fid)` followed by mutating that
column's `type` through `f`: only the first column with the identifier is
updated; with no match nothing changes. -/
def setColType (cols : List Column) (fid : String) (f : String → String) : List Column :=
  match cols with
  | [] => []
  | c :: rest =>
    if c.id = fid then { c with type := f c.type } :: rest
    else c :: setColType rest fid f

/-- The type of the first column with identifier `fid`, as both the
`find`-based update and the render read it. -/
def colTypeFirst (cols : List Column) (fid : String) : Option String :=
  (cols.find? (fun c => c.id = fid)).map (fun c => c.type)

/-- One inner-loop step of the column-type update: read
`item.fields[field.id]`; when it is defined, upgrade the first column with
that field's identifier. -/
def applyFieldValue (dp : String → Bool) (item : Row) (cols : List Column)
    (f : Field) : List Column :=
  let v := objGet (rowFieldsObj item) f.id
  if isUndefined v then cols else setColType cols f.id (inferValueType dp v)

/-- The inner `modelDetails.fields.forEach` loop for one fetched item. -/
def applyItem (dp : String → Bool) (mfields : List Field) (item : Row)
    (cols : List Column) : List Column :=
  mfields.foldl (applyFieldValue dp item) cols

/-- The `data.forEach` loop of `loadResources`: update column types from
every item of the fetched batch, in order. Important: `cols` here is the
`allColumns` array captured by the `useCallback` closure when
`loadResources` was created. That array is a plain local of the component
body, not React state, so this result is never written back anywhere: the
re-render triggered by the surrounding `setRows` call rebuilds a fresh
all-`"text"` array (see `renderColumns`), and the mutated stale array is
discarded. -/
def updateColumnTypes (dp : String → Bool) (mfields : List Field)
    (data : List Row) (cols : List Column) : List Column :=
  data.foldl (fun cs item => applyItem dp mfields item cs) cols

/-- The column list any render of `ClientResourceTable` actually maps
over in its JSX: the component body recomputes `allColumns` — every type
defaulted to `"text"` — on every render, and it is this current render's
array, not the stale one mutated inside `loadResources`, that supplies
`type={column.type}` to each `EditableCell`. -/
def renderColumns (m : Model) : List Column := allColumns m

/-- The defined values observed for column `fid` in one item, in the
order the inner loop visits them. -/
def observedItem (mfields : List Field) (fid : String) (item : Row) : List JVal :=
  mfields.filterMap (fun f =>
    if f.id = fid then
      let v := objGet (rowFieldsObj item) f.id
      if isUndefined v then none else some v
    else none)

/-- The defined values observed for column `fid` across a fetched batch,
in processing order. -/
def observedFor (mfields : List Field) (fid : String) (data : List Row) : List JVal :=
  data.flatMap (observedItem mfields fid)

/-! ## Table state and list loading -/

/-- A toast notification: title and whether it is the destructive
(error) variant. -/
structure Toast where
  title : String
  destructive : Bool
deriving Repr, DecidableEq

/-- The `next` cursor value returned by `resources.list`:
`string | null | undefined`. -/
inductive NextVal where
  | nNull
  | nUndefined
  | nStr (s : String)
deriving Repr, DecidableEq

/-- `next || undefined` coerced into the `cursor` state
(`string | undefined`, i.e. `Option String`): a truthy string is kept,
anything falsy becomes `undefined`. -/
def nextOrUndefined : NextVal → Option String
  | .nStr s => if s = "" then none else some s
  | _ => none

/-- `next !== null`. -/
def nextNotNull : NextVal → Bool
  | .nNull => false
  | _ => true

/-- Whether a `next` value is JS-truthy. -/
def nextTruthy : NextVal → Bool
  | .nStr s => decide (s ≠ "")
  | _ => false

/-- The `ClientResourceTable` state relevant to loading: rows, cursor,
`hasMore` and the loading flags. -/
structure TableState where
  rows : List Row
  cursor : Option String
  hasMore : Bool
  loading : Bool
  loadingMore : Bool
  initialLoad : Bool
deriving Repr

/-- Outcome of an awaited `resources.list` call: a data/next payload, an
error result, or a thrown exception. -/
inductive ListOutcome where
  | ok (data : List Row) (next : NextVal)
  | errResult (msg : String)
  | thrown
deriving Repr

/-- The toast shown when loading resources fails. -/
def loadErrorToast : Toast := { title := "Error loading resources", destructive := true }

/-- The parameters of a `resources.list` request. -/
structure ListParams where
  fields : List String
  limit : Nat
  q : Option String
  cursor : Option String
deriving Repr, DecidableEq

/-- The list request `loadResources` issues: all model field identifiers,
page size 20, `q` present exactly when the debounced search term is
non-empty, and the stored cursor only on a load-more. -/
def loadRequest (m : Model) (debouncedSearch : String) (s : TableState)
    (isLoadMore : Bool) : ListParams :=
  { fields := m.fields.map (fun f => f.id),
    limit := 20,
    q := if debouncedSearch.length > 0 then some debouncedSearch else none,
    cursor := if isLoadMore then s.cursor else none }

/-- The state transition of `loadResources` once the `list` call resolved
with `outcome`. On success the rows are appended to (load-more) or
replaced (fresh load), and `cursor`/`hasMore` are refreshed from `next`;
on an error result or a thrown exception only a destructive toast is
produced. The `finally` block clears the loading flags in every case. -/
def loadResources (s : TableState) (isLoadMore : Bool) (outcome : ListOutcome) :
    TableState × Option Toast :=
  match outcome with
  | .ok data next =>
    ({ s with
        rows := if isLoadMore then s.rows ++ data else data,
        cursor := nextOrUndefined next,
        hasMore := nextNotNull next,
        loading := false, loadingMore := false, initialLoad := false }, none)
  | .errResult _ =>
    ({ s with loading := false, loadingMore := false, initialLoad := false },
      some loadErrorToast)
  | .thrown =>
    ({ s with loading := false, loadingMore := false, initialLoad := false },
      some loadErrorToast)

/-- `handleLoadMore`: starts `loadResources(true)` (returning the cursor
the fetch will use) only when `hasMore && !loadingMore`; otherwise no
fetch is started. -/
def handleLoadMore (s : TableState) : Option (Option String) :=
  if s.hasMore && !s.loadingMore then some s.cursor else none

/-! ## Cell update (`handleCellUpdate`) -/

/-- Outcome of an awaited `resources.update` call. -/
inductive UpdateOutcome where
  | ok
  | errResult (msg : String)
  | thrown
deriving Repr, DecidableEq

/-- What `handleCellUpdate` leaves behind: the rows state once its own
`setRows` calls have run, whether it invoked `loadResources()` (a full
reload), and the toast it raised. -/
structure CellUpdateResult where
  rows : List Row
  didFullReload : Bool
  toast : Option Toast
deriving Repr

/-- The optimistic `setRows`: the matching row gets the new value written
as the top-level property `[columnId]` through an object spread. -/
def optimisticStep (rows : List Row) (rowId colId : String) (v : JVal) : List Row :=
  rows.map (fun row =>
    if jvalEqStr (objGet row "id") rowId then objSet row colId v else row)

/-- The post-success `setRows`: the matching row's `fields` object gets
`[columnId]` set to the new value. -/
def confirmStep (rows : List Row) (rowId colId : String) (v : JVal) : List Row :=
  rows.map (fun row =>
    if jvalEqStr (objGet row "id") rowId then
      objSet row "fields" (.jObj (objSet (rowFieldsObj row) colId v))
    else row)

/-- The error-result toast of `handleCellUpdate`. -/
def updateErrorToast : Toast := { title := "Error updating resource", destructive := true }

/-- The success toast of `handleCellUpdate`. -/
def updateSuccessToast : Toast := { title := "Value updated", destructive := false }

/-- The catch-block toast of `handleCellUpdate`. -/
def updateFailedToast : Toast := { title := "Update failed", destructive := true }

/-- `handleCellUpdate(rowId, columnId, value)` with the remote `update`
call resolving as `outcome`. The optimistic step always runs first. On an
error result the handler toasts and returns (no reload); on success it
writes the value into the row's `fields`; only a thrown exception calls
`loadResources()` to revert by full reload. -/
def handleCellUpdate (rows : List Row) (rowId colId : String) (v : JVal)
    (outcome : UpdateOutcome) : CellUpdateResult :=
  let optimistic := optimisticStep rows rowId colId v
  match outcome with
  | .ok =>
    { rows := confirmStep optimistic rowId colId v,
      didFullReload := false, toast := some updateSuccessToast }
  | .errResult _ =>
    { rows := optimistic, didFullReload := false, toast := some updateErrorToast }
  | .thrown =>
    { rows := optimistic, didFullReload := true, toast := some updateFailedToast }

/-- What the table body renders for one row: for each column, the cell's
value read from `row.fields[column.id]` together with the column's
current type (passed to `EditableCell` as `type={column.type}`). -/
def renderedCells (cols : List Column) (row : Row) : List (String × JVal × String) :=
  cols.map (fun c => (c.id, (objGet (rowFieldsObj row) c.id, c.type)))

/-! ## Editable cell (`components/resources/editable-cell.tsx`) -/

/-- The editable cell's state: edit-mode flag and in-progress edit
value. -/
structure CellState where
  isEditing : Bool
  editValue : JVal
deriving Repr

/-- `handleStartEdit`: enter edit mode seeded with the current value. -/
def handleStartEdit (value : JVal) (_s : CellState) : CellState :=
  { isEditing := true, editValue := value }

/-- `handleKeyDown`: Enter saves (invoking `onUpdate` with the edit value
and leaving edit mode), Escape cancels (leaving edit mode with no
callback), anything else does nothing. The second component is the
payload passed to `onUpdate`, when any. -/
def handleKeyDown (key : String) (s : CellState) : CellState × Option JVal :=
  if key = "Enter" then ({ s with isEditing := false }, some s.editValue)
  else if key = "Escape" then ({ s with isEditing := false }, none)
  else (s, none)

/-- The `useEffect` on `[value, isEditing]`: outside edit mode the edit
value is resynchronised to the cell value. -/
def syncValueEffect (value : JVal) (s : CellState) : CellState :=
  if s.isEditing then s else { s with editValue := value }

/-- The widget the cell renders in edit mode. -/
inductive EditWidget where
  | selectW (current : String) (items : List (String × String))
  | dateW (hasValue : Bool)
  | inputW (inputType : String) (value : JVal)
deriving Repr

/-- `String(v)` for the values a select edit receives. -/
def jsToString : JVal → String
  | .jNull => "null"
  | .jUndefined => "undefined"
  | .jBool b => if b then "true" else "false"
  | .jNum n => toString n
  | .jStr s => s
  | .jDate _ => "[date]"
  | .jObj _ => "[object Object]"

/-- The edit-mode `switch (type)` of `EditableCell`: select renders the
supplied options, date a calendar trigger, boolean a two-item Yes/No
selector whose current value is `editValue ? "true" : "false"`, and every
other type a text input whose HTML type is `"number"` for numeric columns
and `"text"` otherwise. -/
def editWidget (ty : String) (editValue : JVal)
    (options : List (String × String)) : EditWidget :=
  match ty with
  | "select" => .selectW (jsToString editValue) options
  | "date" => .dateW (jsTruthy editValue)
  | "boolean" =>
    .selectW (if jsTruthy editValue then "true" else "false")
      [("true", "Yes"), ("false", "No")]
  | _ => .inputW (if ty = "number" then "number" else "text") editValue

/-- The boolean selector's `onValueChange`: commit `v === "true"` through
`onUpdate` and leave edit mode. -/
def booleanSelectChange (v : String) (_s : CellState) : CellState × Option JVal :=
  ({ isEditing := false, editValue := .jBool (v = "true") }, some (.jBool (v = "true")))

/-- The display-mode `switch (type)`: dates are formatted (through the
external `date-fns` formatter `fmt`) when truthy, booleans become
"Yes"/"No", select values map to their option label falling back to the
raw value; other types display the raw value. -/
def displayValueFn (fmt : JVal → String) (ty : String) (value : JVal)
    (options : List (String × String)) : JVal :=
  match ty with
  | "date" => if jsTruthy value then .jStr (fmt value) else .jStr "-"
  | "boolean" => .jStr (if jsTruthy value then "Yes" else "No")
  | "select" =>
    match options.find? (fun o => jvalEqStr value o.1) with
    | some o => if o.2 = "" then value else .jStr o.2
    | none => value
  | _ => value

/-- The display render `{displayValue || "-"}`. -/
def displayRender (fmt : JVal → String) (ty : String) (value : JVal)
    (options : List (String × String)) : JVal :=
  let dv := displayValueFn fmt ty value options
  if jsTruthy dv then dv else .jStr "-"

/-! ## Server resource page (`ServerResourcePage`) -/

/-- Outcome of the awaited `resources.list` call on the server page. -/
inductive FetchOutcome where
  | ok (data : List Row)
  | errResult (msg : String)
  | thrown
deriving Repr

/-- What the server resource page produces: either a not-found response
or the rendered resource table. -/
inductive PageResult where
  | notFoundPage
  | resourcePage (modelName : String) (data : List Row)
deriving Repr

/-- `ServerResourcePage`: everything runs inside a try/catch whose catch
renders `notFound()`. A missing model throws; an error result from the
fetch throws; a thrown fetch propagates; all three are caught at the page
boundary and become the not-found response. Only a found model with a
successful fetch renders the table. -/
def serverResourcePage (modelId : String) (_q : Option String)
    (fetch : FetchOutcome) : PageResult :=
  match modelsGet modelId with
  | none => .notFoundPage
  | some m =>
    match fetch with
    | .ok data => .resourcePage m.name data
    | .errResult _ => .notFoundPage
    | .thrown => .notFoundPage

/-! ## Helper lemmas -/

theorem find?_map_setFun (o : JObj) (k k' : String) (v : JVal) (h : k' ≠ k) :
    (o.map (fun p => if p.1 = k then (k, v) else p)).find? (fun p => p.1 = k')
      = o.find? (fun p => p.1 = k') := by
  induction o with
  | nil => rfl
  | cons p rest ih =>
    simp only [List.map_cons]
    by_cases hp : p.1 = k
    · have h1 : ¬(((k, v) : String × JVal).1 = k') := fun hh => h hh.symm
      have h2 : ¬p.1 = k' := by rw [hp]; exact fun hh => h hh.symm
      rw [if_pos hp, List.find?_cons_of_neg _ (by simpa using h1),
          List.find?_cons_of_neg _ (by simpa using h2), ih]
    · rw [if_neg hp]
      by_cases hk : p.1 = k'
      · rw [List.find?_cons_of_pos _ (by simpa using hk),
            List.find?_cons_of_pos _ (by simpa using hk)]
      · rw [List.find?_cons_of_neg _ (by simpa using hk),
            List.find?_cons_of_neg _ (by simpa using hk), ih]

theorem objGet_objSet_same (o : JObj) (k : String) (v : JVal) :
    objGet (objSet o k v) k = v := by
  unfold objSet
  by_cases ha : o.any (fun p => p.1 = k)
  · simp only [ha, if_true, objGet, List.find?_map]
    induction o with
    | nil => simp at ha
    | cons p rest ih =>
      by_cases hp : p.1 = k
      · simp [Function.comp, hp]
      · have ha' : rest.any (fun p => p.1 = k) := by
          simpa [List.any_cons, hp] using ha
        simpa [Function.comp, List.find?_cons_of_neg, hp] using ih ha'
  · simp only [ha, if_false, objGet, List.find?_append]
    have hnone : o.find? (fun p => p.1 = k) = none := by
      rw [List.find?_eq_none]
      intro p hp hpk
      exact ha (List.any_of_mem hp hpk)
    simp [hnone]

theorem objGet_objSet_ne (o : JObj) (k k' : String) (v : JVal) (h : k' ≠ k) :
    objGet (objSet o k v) k' = objGet o k' := by
  unfold objSet
  by_cases ha : o.any (fun p => p.1 = k)
  · simp only [ha, if_true, objGet]
    rw [find?_map_setFun o k k' v h]
  · simp only [ha, if_false, objGet, List.find?_append]
    cases hfind : o.find? (fun p => p.1 = k') with
    | some p => simp [hfind]
    | none => simp [hfind, Option.or, Ne.symm h]

theorem rowFieldsObj_objSet_ne (row : Row) (k : String) (v : JVal)
    (h : k ≠ "fields") : rowFieldsObj (objSet row k v) = rowFieldsObj row := by
  unfold rowFieldsObj
  rw [objGet_objSet_ne row k "fields" v (Ne.symm h)]

theorem colTypeFirst_setColType_same (cols : List Column) (fid : String)
    (f : String → String) :
    colTypeFirst (setColType cols fid f) fid = (colTypeFirst cols fid).map f := by
  induction cols with
  | nil => rfl
  | cons c rest ih =>
    by_cases hc : c.id = fid
    · simp [setColType, colTypeFirst, hc]
    · simpa [setColType, colTypeFirst, hc] using ih

theorem colTypeFirst_setColType_ne (cols : List Column) (fid' fid : String)
    (f : String → String) (h : fid ≠ fid') :
    colTypeFirst (setColType cols fid' f) fid = colTypeFirst cols fid := by
  induction cols with
  | nil => rfl
  | cons c rest ih =>
    by_cases hc : c.id = fid'
    · have hcf : ¬c.id = fid := by rw [hc]; exact fun hh => h hh.symm
      simp [setColType, colTypeFirst, hc, hcf, Ne.symm h]
    · by_cases hcid : c.id = fid
      · simp [setColType, colTypeFirst, hc, hcid, h]
      · simpa [setColType, colTypeFirst, hc, hcid] using ih

theorem colTypeFirst_applyItem (dp : String → Bool) (mfields : List Field)
    (item : Row) (cols : List Column) (fid : String) :
    colTypeFirst (applyItem dp mfields item cols) fid =
      (colTypeFirst cols fid).map (fun cur =>
        (observedItem mfields fid item).foldl (fun t v => inferValueType dp v t) cur) := by
  induction mfields generalizing cols with
  | nil =>
    simp [applyItem, observedItem]
  | cons f fs ih =>
    have hstep : applyItem dp (f :: fs) item cols
        = applyItem dp fs item (applyFieldValue dp item cols f) := rfl
    rw [hstep, ih]
    by_cases hf : f.id = fid
    · by_cases hu : isUndefined (objGet (rowFieldsObj item) f.id)
      · have hu' : isUndefined (objGet (rowFieldsObj item) fid) = true := hf ▸ hu
        have h1 : applyFieldValue dp item cols f = cols := by
          simp [applyFieldValue, hu]
        have h2 : observedItem (f :: fs) fid item = observedItem fs fid item := by
          simp [observedItem, List.filterMap_cons, hf, hu']
        rw [h1, h2]
      · have hu' : ¬isUndefined (objGet (rowFieldsObj item) fid) = true := hf ▸ hu
        have h1 : applyFieldValue dp item cols f
            = setColType cols f.id
                (inferValueType dp (objGet (rowFieldsObj item) f.id)) := by
          simp [applyFieldValue, hu]
        have h2 : observedItem (f :: fs) fid item
            = objGet (rowFieldsObj item) fid :: observedItem fs fid item := by
          simp [observedItem, List.filterMap_cons, hf, hu']
        rw [h1, h2, hf, colTypeFirst_setColType_same]
        cases colTypeFirst cols fid with
        | none => rfl
        | some cur => simp [hf]
    · by_cases hu : isUndefined (objGet (rowFieldsObj item) f.id)
      · have h1 : applyFieldValue dp item cols f = cols := by
          simp [applyFieldValue, hu]
        have h2 : observedItem (f :: fs) fid item = observedItem fs fid item := by
          simp [observedItem, List.filterMap_cons, hf]
        rw [h1, h2]
      · have h1 : applyFieldValue dp item cols f
            = setColType cols f.id
                (inferValueType dp (objGet (rowFieldsObj item) f.id)) := by
          simp [applyFieldValue, hu]
        have h2 : observedItem (f :: fs) fid item = observedItem fs fid item := by
          simp [observedItem, List.filterMap_cons, hf]
        rw [h1, h2, colTypeFirst_setColType_ne cols f.id fid _ (fun hh => hf hh.symm)]

theorem colTypeFirst_updateColumnTypes (dp : String → Bool) (mfields : List Field)
    (data : List Row) (cols : List Column) (fid : String) :
    colTypeFirst (updateColumnTypes dp mfields data cols) fid =
      (colTypeFirst cols fid).map (fun cur =>
        (observedFor mfields fid data).foldl (fun t v => inferValueType dp v t) cur) := by
  induction data generalizing cols with
  | nil => simp [updateColumnTypes, observedFor]
  | cons item rest ih =>
    have hstep : updateColumnTypes dp mfields (item :: rest) cols
        = updateColumnTypes dp mfields rest (applyItem dp mfields item cols) := rfl
    rw [hstep, ih, colTypeFirst_applyItem]
    cases colTypeFirst cols fid with
    | none => rfl
    | some cur => simp [observedFor, List.foldl_append]

theorem string_length_pos_iff (s : String) : s.length > 0 ↔ s ≠ "" := by
  cases s with
  | mk data =>
    cases data with
    | nil => simp [String.length]
    | cons c cs =>
      simp only [String.length, List.length_cons]
      constructor
      · intro _ h
        exact List.cons_ne_nil c cs (congrArg String.data h)
      · intro _
        exact Nat.succ_pos _

/-! ## Claim theorems -/

/-- C3: for every non-empty row list and every successful load-more fetch
returning a batch of records, the new row list equals the old row list
with the batch appended at the end; a fresh (non-load-more) successful
load replaces the list with the batch instead. -/
theorem C3_load_more_appends (s : TableState) (data : List Row) (next : NextVal)
    (h : s.rows ≠ []) :
    (loadResources s true (.ok data next)).1.rows = s.rows ++ data ∧
    (loadResources s false (.ok data next)).1.rows = data :=
  ⟨rfl, rfl⟩

/-- Witness for C3 at a concrete one-row state and one-record batch. -/
theorem C3_load_more_appends_witness :
    (loadResources
        { rows := [[("id", JVal.jStr "r1")]], cursor := some "cur1", hasMore := true,
          loading := false, loadingMore := true, initialLoad := false }
        true (.ok [[("id", JVal.jStr "r2")]] .nNull)).1.rows
      = [[("id", JVal.jStr "r1")]] ++ [[("id", JVal.jStr "r2")]] :=
  (C3_load_more_appends _ _ _ (by simp)).1

/-- C4: load-more starts a fetch exactly when a further page exists
(`hasMore`) and no load-more fetch is in flight (`!loadingMore`); under
the negation of either condition no fetch is started. -/
theorem C4_load_more_guard (s : TableState) :
    ((handleLoadMore s).isSome ↔ (s.hasMore = true ∧ s.loadingMore = false)) ∧
    ((s.hasMore = false ∨ s.loadingMore = true) → handleLoadMore s = none) := by
  constructor
  · by_cases h1 : s.hasMore <;> by_cases h2 : s.loadingMore <;>
      simp [handleLoadMore, h1, h2]
  · rintro (h | h) <;> simp [handleLoadMore, h]

/-- Witness for C4 at a concrete state with `loadingMore` set. -/
theorem C4_load_more_guard_witness :
    handleLoadMore
      { rows := [], cursor := none, hasMore := true, loading := false,
        loadingMore := true, initialLoad := false } = none :=
  (C4_load_more_guard _).2 (Or.inr rfl)

/-- C9: after a successful list fetch, `hasMore` is true iff the returned
`next` is not `null`; the stored cursor is `next` when `next` is truthy
and `undefined` otherwise; in particular `next === undefined` leaves
`hasMore` true while the cursor resets to `undefined`. -/
theorem C9_cursor_invariant (s : TableState) (isLoadMore : Bool)
    (data : List Row) (next : NextVal) :
    ((loadResources s isLoadMore (.ok data next)).1.hasMore = true ↔ next ≠ .nNull) ∧
    (∀ str, next = .nStr str → str ≠ "" →
      (loadResources s isLoadMore (.ok data next)).1.cursor = some str) ∧
    (nextTruthy next = false →
      (loadResources s isLoadMore (.ok data next)).1.cursor = none) ∧
    (next = .nUndefined →
      (loadResources s isLoadMore (.ok data next)).1.hasMore = true ∧
      (loadResources s isLoadMore (.ok data next)).1.cursor = none) := by
  refine ⟨?_, ?_, ?_, ?_⟩
  · cases next <;> simp [loadResources, nextNotNull]
  · rintro str rfl hne
    simp [loadResources, nextOrUndefined, hne]
  · intro ht
    cases next with
    | nStr str =>
      simp only [nextTruthy, decide_eq_false_iff_not, not_not] at ht
      simp [loadResources, nextOrUndefined, ht]
    | nNull => simp [loadResources, nextOrUndefined]
    | nUndefined => simp [loadResources, nextOrUndefined]
  · rintro rfl
    simp [loadResources, nextOrUndefined, nextNotNull]

/-- Witness for C9 at a concrete state with `next` undefined. -/
theorem C9_cursor_invariant_witness :
    (loadResources
        { rows := [], cursor := some "old", hasMore := true, loading := true,
          loadingMore := false, initialLoad := true }
        false (.ok [] .nUndefined)).1.hasMore = true ∧
    (loadResources
        { rows := [], cursor := some "old", hasMore := true, loading := true,
          loadingMore := false, initialLoad := true }
        false (.ok [] .nUndefined)).1.cursor = none :=
  (C9_cursor_invariant _ _ _ _).2.2.2 rfl

/-- C10: the `q` parameter of every list request equals the debounced
search term when it is non-empty, and is omitted (`undefined`, never the
empty string) when the term is empty. -/
theorem C10_search_param (m : Model) (ds : String) (s : TableState)
    (isLoadMore : Bool) :
    (ds ≠ "" → (loadRequest m ds s isLoadMore).q = some ds) ∧
    (ds = "" → (loadRequest m ds s isLoadMore).q = none) ∧
    (loadRequest m ds s isLoadMore).q ≠ some "" := by
  refine ⟨?_, ?_, ?_⟩
  · intro h
    simp [loadRequest, (string_length_pos_iff ds).mpr h]
  · rintro rfl
    simp [loadRequest]
  · by_cases h : ds = ""
    · subst h; simp [loadRequest]
    · simp [loadRequest, (string_length_pos_iff ds).mpr h]
      intro heq
      exact h heq

/-- Witness for C10 with the search terms "Ada" and "". -/
theorem C10_search_param_witness :
    (loadRequest genericContact "Ada"
        { rows := [], cursor := none, hasMore := true, loading := false,
          loadingMore := false, initialLoad := true } false).q = some "Ada" ∧
    (loadRequest genericContact ""
        { rows := [], cursor := none, hasMore := true, loading := false,
          loadingMore := false, initialLoad := true } false).q = none :=
  ⟨(C10_search_param _ _ _ _).1 (by simp),
   (C10_search_param _ _ _ _).2.1 rfl⟩

/-- C5: the server resource page renders a not-found response whenever the
resource fetch fails — a model missing from the registry, an error result
from the fetch, or a thrown error during page construction are all caught
at the page boundary and become not-found. -/
theorem C5_server_page_not_found (modelId : String) (q : Option String)
    (f : FetchOutcome) :
    (modelsGet modelId = none → serverResourcePage modelId q f = .notFoundPage) ∧
    (∀ msg, f = .errResult msg → serverResourcePage modelId q f = .notFoundPage) ∧
    (f = .thrown → serverResourcePage modelId q f = .notFoundPage) := by
  refine ⟨?_, ?_, ?_⟩
  · intro h
    simp [serverResourcePage, h]
  · rintro msg rfl
    unfold serverResourcePage
    cases modelsGet modelId <;> rfl
  · rintro rfl
    unfold serverResourcePage
    cases modelsGet modelId <;> rfl

/-- Witness for C5: an unknown model id and a failing fetch both render
not-found. -/
theorem C5_server_page_not_found_witness :
    serverResourcePage "unknownModel" none (.ok []) = .notFoundPage ∧
    serverResourcePage "genericContact" (some "Ada") (.errResult "boom")
      = .notFoundPage :=
  ⟨(C5_server_page_not_found _ _ _).1 (by decide),
   (C5_server_page_not_found _ _ _).2.1 "boom" rfl⟩

/-- C6: pressing Escape in editing mode returns the cell to display mode,
never invokes the commit callback (`onUpdate`), and the in-progress edit
value is discarded (the resynchronisation effect restores the cell
value). -/
theorem C6_escape_cancels (s : CellState) (value : JVal)
    (h : s.isEditing = true) :
    (handleKeyDown "Escape" s).1.isEditing = false ∧
    (handleKeyDown "Escape" s).2 = none ∧
    (syncValueEffect value (handleKeyDown "Escape" s).1).editValue = value := by
  refine ⟨rfl, rfl, ?_⟩
  simp [handleKeyDown, syncValueEffect]

/-- Witness for C6 with a concrete in-progress edit value. -/
theorem C6_escape_cancels_witness :
    (handleKeyDown "Escape" ⟨true, .jStr "draft"⟩).1.isEditing = false ∧
    (handleKeyDown "Escape" ⟨true, .jStr "draft"⟩).2 = none ∧
    (syncValueEffect (.jStr "Ada")
        (handleKeyDown "Escape" ⟨true, .jStr "draft"⟩).1).editValue = .jStr "Ada" :=
  C6_escape_cancels ⟨true, .jStr "draft"⟩ (.jStr "Ada") rfl

/-- C7: a boolean cell with underlying value `true` displays "Yes" in
display mode; in edit mode it renders a selector with exactly the two
options "Yes" and "No" whose current selection is `"true"` (labelled
"Yes"); selecting an option commits the corresponding boolean through the
callback and exits edit mode. -/
theorem C7_boolean_cell (fmt : JVal → String) (opts : List (String × String))
    (s : CellState) :
    displayRender fmt "boolean" (.jBool true) opts = .jStr "Yes" ∧
    editWidget "boolean" (handleStartEdit (.jBool true) s).editValue opts
      = .selectW "true" [("true", "Yes"), ("false", "No")] ∧
    (handleStartEdit (.jBool true) s).isEditing = true ∧
    List.lookup "true" [("true", "Yes"), ("false", "No")] = some "Yes" ∧
    booleanSelectChange "true" s
      = (⟨false, .jBool true⟩, some (.jBool true)) ∧
    booleanSelectChange "false" s
      = (⟨false, .jBool false⟩, some (.jBool false)) := by
  refine ⟨?_, ?_, rfl, ?_, ?_, ?_⟩
  · simp [displayRender, displayValueFn, jsTruthy]
  · simp [editWidget, handleStartEdit, jsTruthy]
  · rfl
  · simp [booleanSelectChange]
  · simp [booleanSelectChange]

/-- C1 counterexample: with a concrete row, the remote update returning an
error result does not trigger a full reload (`loadResources` is not
invoked), contradicting the claim that every failing update reloads the
row set. -/
theorem C1_counterexample :
    (handleCellUpdate
        [[("id", JVal.jStr "r1"),
          ("fields", JVal.jObj [("email", JVal.jStr "ada@mail.test")])]]
        "r1" "email" (.jStr "new@mail.test") (.errResult "update failed")
      ).didFullReload = false := rfl

/-- C1 amended: only a thrown remote update call triggers the full reload
together with a destructive error notification; a remote call that
returns an error result shows the destructive error notification but does
not reload (the handler returns after toasting). -/
theorem C1_failure_handling (rows : List Row) (rowId colId : String)
    (v : JVal) (msg : String) :
    ((handleCellUpdate rows rowId colId v .thrown).didFullReload = true ∧
     (handleCellUpdate rows rowId colId v .thrown).toast = some updateFailedToast ∧
     updateFailedToast.destructive = true) ∧
    ((handleCellUpdate rows rowId colId v (.errResult msg)).didFullReload = false ∧
     (handleCellUpdate rows rowId colId v (.errResult msg)).toast
        = some updateErrorToast ∧
     updateErrorToast.destructive = true) :=
  ⟨⟨rfl, rfl, rfl⟩, ⟨rfl, rfl, rfl⟩⟩

/-- C8: the optimistic step writes the new value to the top-level
property `row[columnId]` and leaves every row's `fields` object — and
hence every value the table renders — unchanged; `row.fields[columnId]`
becomes the new value only in the post-success step. The hypothesis
excludes `columnId = "fields"`, where the top-level spread would itself
overwrite the `fields` property (no model field is named `"fields"`). -/
theorem C8_optimistic_top_level (rows : List Row) (rowId colId : String)
    (v : JVal) (cols : List Column) (h : colId ≠ "fields") :
    ((optimisticStep rows rowId colId v).map (fun r => objGet r "fields")
        = rows.map (fun r => objGet r "fields")) ∧
    ((optimisticStep rows rowId colId v).map (renderedCells cols)
        = rows.map (renderedCells cols)) ∧
    (∀ row : Row, objGet (objSet row colId v) colId = v) ∧
    ((handleCellUpdate rows rowId colId v .ok).rows
        = confirmStep (optimisticStep rows rowId colId v) rowId colId v) ∧
    (∀ row : Row, ∀ r ∈ confirmStep [row] rowId colId v,
      jvalEqStr (objGet row "id") rowId = true →
        objGet (rowFieldsObj r) colId = v) := by
  refine ⟨?_, ?_, ?_, rfl, ?_⟩
  · unfold optimisticStep
    rw [List.map_map]
    refine List.map_congr_left (fun row _ => ?_)
    by_cases hm : jvalEqStr (objGet row "id") rowId <;>
      simp [hm, objGet_objSet_ne _ _ _ _ (Ne.symm h)]
  · unfold optimisticStep
    rw [List.map_map]
    refine List.map_congr_left (fun row _ => ?_)
    by_cases hm : jvalEqStr (objGet row "id") rowId <;>
      simp [hm, renderedCells, rowFieldsObj_objSet_ne _ _ _ h]
  · intro row
    exact objGet_objSet_same row colId v
  · intro row r hr hm
    simp only [confirmStep, List.map_cons, List.map_nil, hm, if_true,
      List.mem_singleton] at hr
    subst hr
    unfold rowFieldsObj
    rw [objGet_objSet_same]
    exact objGet_objSet_same _ colId v

/-- Witness for C8 at a concrete row and column. -/
theorem C8_optimistic_top_level_witness :
    ((optimisticStep
        [[("id", JVal.jStr "r1"),
          ("fields", JVal.jObj [("email", JVal.jStr "ada@mail.test")])]]
        "r1" "email" (.jStr "new@mail.test")).map (fun r => objGet r "fields")
      = [[("id", JVal.jStr "r1"),
          ("fields", JVal.jObj [("email", JVal.jStr "ada@mail.test")])]].map
          (fun r => objGet r "fields")) :=
  (C8_optimistic_top_level _ "r1" "email" (.jStr "new@mail.test") []
    (by decide)).1

/-- C2: the claim — and the component's own documentation ("Dynamic
column type inference", "Default type, will be updated based on data") —
says the type inferred from fetched values selects the cell's edit
widget. The code computes that inference but drops it: evaluated at the
failing input (model Contact, one fetched batch whose single record has
`fields.firstName = 5`), the `data.forEach` loop does turn the captured
stale array's `firstName` column into `"number"`, yet the column array a
render maps over is rebuilt all-`"text"`, so the cell rendered for
`firstName` carries type `"text"` and its edit widget is the plain text
input, not the numeric input the claim requires. -/
theorem C2_stale_columns_bug :
    colTypeFirst
        (updateColumnTypes (fun _ => false) genericContact.fields
          [[("id", JVal.jStr "r1"),
            ("fields", JVal.jObj [("firstName", JVal.jNum 5)])]]
          (allColumns genericContact)) "firstName" = some "number" ∧
    renderColumns genericContact = allColumns genericContact ∧
    (renderColumns genericContact).all (fun c => c.type == "text") = true ∧
    (renderedCells (renderColumns genericContact)
        [("id", JVal.jStr "r1"),
         ("fields", JVal.jObj [("firstName", JVal.jNum 5)])]).head?
      = some ("firstName", (JVal.jNum 5, "text")) ∧
    editWidget "text" (.jNum 5) [] = .inputW "text" (.jNum 5) ∧
    EditWidget.inputW "text" (.jNum 5) ≠ EditWidget.inputW "number" (.jNum 5) := by
  refine ⟨rfl, rfl, rfl, rfl, rfl, ?_⟩
  intro h
  simp at h

end MorphPoc
